import Mathlib

set_option maxRecDepth 100000

/-!
Shallow embedding of the reminder subsystem of the LINE interview-management
bot (`src/app.js`).  Pure in-memory state passing replaces the Supabase store
and the LINE push channel: the store is a `List Interview`, the push channel
is an oracle `deliver : String → Bool`, flag writes are an oracle
`markOk : Nat → ReminderType → Bool`, and side effects (dispatch calls,
recipient-directory resolutions) are recorded in an explicit event trace.
Timezone-aware datetime parsing (`moment.tz`) is the Clock/Timezone
collaborator and is modelled by an abstract `parseMs : String → String → Int`
giving the instant (ms since epoch) of a `YYYY-MM-DD` + `HH:mm:ss` pair.
-/

namespace LineBot

/-- Reminder kind: `'24h'` or `'3h'` in the source. -/
inductive ReminderType
  | h24
  | h3
deriving DecidableEq, Repr

/-- One row of the `interviews` table (fields used by the reminder logic). -/
structure Interview where
  id : Nat
  user_id : String
  interviewee_name : String
  interviewer_name : String
  interview_date : String
  interview_time : String
  reason : String
  reminder_24h_sent : Bool
  reminder_3h_sent : Bool
deriving DecidableEq, Repr

/-- Environment of the reminder subsystem: external collaborators and
configuration.  `lineUsers` / `lineGroups` model the contact-tracking tables
(`id`, `active`); `presidentId` models `PRESIDENT_LINE_USER_ID`;
`envGroupId` models a trimmed non-empty `GROUP_ID`; `envGroupIds` models
`GROUP_IDS` after split/trim/filter; `deliver` is the push-channel outcome
per recipient id; `markOk` is the store's outcome for a flag write;
`parseMs` is the timezone-fixed datetime parse. -/
structure Env where
  parseMs : String → String → Int
  lineUsers : List (String × Bool)
  lineGroups : List (String × Bool)
  presidentId : Option String
  envGroupId : Option String
  envGroupIds : List String
  deliver : String → Bool
  markOk : Nat → ReminderType → Bool

/-- Models `interviewDateTime.diff(now, 'hours', true)`: signed fractional hours
between the interview's date-time and `now` (both in ms since epoch), i.e.
the exact rational `(interviewMs - nowMs) / 3600000`. -/
def diffHours (env : Env) (now : Int) (i : Interview) : ℚ :=
  mkRat (env.parseMs i.interview_date i.interview_time - now) 3600000

/-- Models `s.startsWith(c)` for a one-character prefix. -/
def strHeadIs (s : String) (c : Char) : Bool :=
  match s.data with
  | [] => false
  | a :: _ => a == c

/-- Models `ReminderManager.isValidLineUserId`: starts with `'U'`, length 33. -/
def isValidLineUserId (userId : String) : Bool :=
  strHeadIs userId 'U' && userId.data.length == 33

/-- Models `ReminderManager.isValidLineGroupId`: starts with `'C'`, length 33. -/
def isValidLineGroupId (groupId : String) : Bool :=
  strHeadIs groupId 'C' && groupId.data.length == 33

/-- Models `ReminderManager.isValidLineRoomId`: starts with `'R'`, length 33. -/
def isValidLineRoomId (roomId : String) : Bool :=
  strHeadIs roomId 'R' && roomId.data.length == 33

/-- JS `Set` insertion: add `x` if not already present, preserving order. -/
def dedupAdd (l : List String) (x : String) : List String :=
  if x ∈ l then l else l ++ [x]

def dedupAddAll (l : List String) (xs : List String) : List String :=
  xs.foldl dedupAdd l

/-- Models `ReminderManager.getReminderRecipientIds`: tracked active users (falling
back to distinct `user_id`s from the `interviews` table when none), plus the
president; tracked active groups plus the statically configured groups.
`if (row.user_id)` skips falsy (empty) ids. -/
def getReminderRecipientIds (env : Env) (db : List Interview) :
    List String × List String :=
  let trackedUsers := ((env.lineUsers.filter (fun p => p.2)).map (fun p => p.1)).filter
    (fun s => s ≠ "")
  let userIds := dedupAddAll [] trackedUsers
  let userIds := if userIds.isEmpty then
      dedupAddAll [] ((db.map (fun i => i.user_id)).filter (fun s => s ≠ ""))
    else userIds
  let userIds := match env.presidentId with
    | some p => dedupAdd userIds p
    | none => userIds
  let trackedGroups := ((env.lineGroups.filter (fun p => p.2)).map (fun p => p.1)).filter
    (fun s => s ≠ "")
  let groupIds := dedupAddAll [] trackedGroups
  let groupIds := if groupIds.isEmpty then
      let groupIds := match env.envGroupId with
        | some g => dedupAdd groupIds g
        | none => groupIds
      dedupAddAll groupIds env.envGroupIds
    else
      let groupIds := match env.envGroupId with
        | some g => dedupAdd groupIds g
        | none => groupIds
      dedupAddAll groupIds env.envGroupIds
  (userIds, groupIds)

/-- Text of a reminder notification (the template literal in
`sendReminderMessage`).  `interview.interview_time.substring(0, 5)` is
`String.take 5`; the `moment` date round-trip is identity on the stored
`YYYY-MM-DD` strings. -/
def reminderMessageText (i : Interview) (t : ReminderType) : String :=
  let hoursText := match t with
    | ReminderType.h24 => "24小時"
    | ReminderType.h3 => "3小時"
  "🔔 面談提醒通知\n\n您有一個面談即將在" ++ hoursText ++ "後舉行：\n\n👤 面談對象：" ++
    i.interviewee_name ++ "\n👨‍💼 面談者：" ++
    (if i.interviewer_name = "" then "未指定" else i.interviewer_name) ++
    "\n📅 日期：" ++ i.interview_date ++ "\n⏰ 時間：" ++ i.interview_time.take 5 ++
    "\n📝 理由：" ++ (if i.reason = "" then "無" else i.reason) ++ "\n\n請做好準備！"

/-- A per-recipient error string pushed onto `errors` in
`sendReminderMessage`: `Invalid ... format` (validation) vs. a delivery
failure message. -/
inductive ErrEntry
  | userInvalid (id : String)
  | userDeliver (id : String)
  | groupInvalid (id : String)
  | groupDeliver (id : String)
deriving DecidableEq, Repr

/-- Observable side effects: one entry per `getReminderRecipientIds` call
(directory resolution) and one per `client.pushMessage` call (dispatch),
whether or not the push succeeds. -/
inductive Event
  | resolveRecipients
  | pushUser (id : String) (msg : String)
  | pushGroup (id : String) (msg : String)
deriving DecidableEq, Repr

/-- State threaded through the send loops: `(sentCount, errors, events)`. -/
abbrev SendState := Nat × List ErrEntry × List Event

/-- Body of the user loop in `sendReminderMessage`: invalid format → error,
no dispatch; otherwise one push attempt, counting success or recording a
delivery error. -/
def sendToUser (env : Env) (msg : String) (st : SendState) (uid : String) :
    SendState :=
  if isValidLineUserId uid then
    if env.deliver uid then
      (st.1 + 1, st.2.1, st.2.2 ++ [Event.pushUser uid msg])
    else
      (st.1, st.2.1 ++ [ErrEntry.userDeliver uid], st.2.2 ++ [Event.pushUser uid msg])
  else
    (st.1, st.2.1 ++ [ErrEntry.userInvalid uid], st.2.2)

/-- Body of the group loop in `sendReminderMessage`. -/
def sendToGroup (env : Env) (msg : String) (st : SendState) (gid : String) :
    SendState :=
  if isValidLineGroupId gid then
    if env.deliver gid then
      (st.1 + 1, st.2.1, st.2.2 ++ [Event.pushGroup gid msg])
    else
      (st.1, st.2.1 ++ [ErrEntry.groupDeliver gid], st.2.2 ++ [Event.pushGroup gid msg])
  else
    (st.1, st.2.1 ++ [ErrEntry.groupInvalid gid], st.2.2)

/-- Result object of `sendReminderMessage`
(`{ success, sentCount, errors }`; `errors === undefined` is `[]`). -/
structure SendResult where
  success : Bool
  sentCount : Nat
  errors : List ErrEntry
deriving DecidableEq, Repr

/-- Models `ReminderManager.sendReminderMessage`: resolve the recipient snapshot,
loop over users then groups, return `success := sentCount > 0` together with
the event trace. -/
def sendReminderMessage (env : Env) (db : List Interview) (i : Interview)
    (t : ReminderType) : SendResult × List Event :=
  let msg := reminderMessageText i t
  let ids := getReminderRecipientIds env db
  let st0 : SendState := (0, [], [Event.resolveRecipients])
  let st1 := ids.1.foldl (sendToUser env msg) st0
  let st2 := ids.2.foldl (sendToGroup env msg) st1
  ({ success := decide (st2.1 > 0), sentCount := st2.1, errors := st2.2.1 }, st2.2.2)

/-- The row update performed by a successful flag write. -/
def setFlag (t : ReminderType) (r : Interview) : Interview :=
  match t with
  | ReminderType.h24 => { r with reminder_24h_sent := true }
  | ReminderType.h3 => { r with reminder_3h_sent := true }

/-- Models `InterviewManager.markReminderSent`: update rows matching the id (the
write succeeds or fails per the store oracle; on failure the function
catches and returns `{ success: false }` with the store unchanged). -/
def markReminderSent (env : Env) (db : List Interview) (interviewId : Nat)
    (t : ReminderType) : List Interview × Bool :=
  if env.markOk interviewId t then
    (db.map (fun r => if r.id = interviewId then setFlag t r else r), true)
  else
    (db, false)

/-- The two classification lists built by
`getInterviewsNeedingReminders` (`{ interviews24h, interviews3h }`). -/
structure ReminderLists where
  interviews24h : List Interview
  interviews3h : List Interview
deriving DecidableEq, Repr

/-- The decimal literal `23.5` as a rational. -/
def q23p5 : ℚ := mkRat 235 10

/-- The decimal literal `24.5` as a rational. -/
def q24p5 : ℚ := mkRat 245 10

/-- The decimal literal `2.5` as a rational. -/
def q2p5 : ℚ := mkRat 25 10

/-- The decimal literal `3.5` as a rational. -/
def q3p5 : ℚ := mkRat 35 10

/-- The Reminder Window Evaluator: the loop body of
`getInterviewsNeedingReminders` over the fetched candidate set.  An
interview is pushed onto the 24h list iff its 24h flag is unset and
`diffHours ∈ [23.5, 24.5]`, and onto the 3h list iff its 3h flag is unset
and `diffHours ∈ [2.5, 3.5]`. -/
def classifyReminders (env : Env) (now : Int) (fetched : List Interview) :
    ReminderLists :=
  { interviews24h := fetched.filter (fun i =>
      !i.reminder_24h_sent && decide (q23p5 ≤ diffHours env now i) &&
        decide (diffHours env now i ≤ q24p5))
    interviews3h := fetched.filter (fun i =>
      !i.reminder_3h_sent && decide (q2p5 ≤ diffHours env now i) &&
        decide (diffHours env now i ≤ q3p5)) }

/-- Date-order comparison on `YYYY-MM-DD` strings (character-wise
lexicographic, which on this format agrees with calendar order — the
Postgres `gte` on the `DATE` column). -/
def charListLe : List Char → List Char → Bool
  | [], _ => true
  | _ :: _, [] => false
  | a :: as, b :: bs =>
    if a < b then true
    else if b < a then false
    else charListLe as bs

def dateLe (a b : String) : Bool := charListLe a.data b.data

/-- The Supabase fetch in `getInterviewsNeedingReminders`: rows with at
least one outstanding flag and `interview_date ≥ today`. -/
def fetchCandidates (nowDate : String) (db : List Interview) : List Interview :=
  db.filter (fun i =>
    (!i.reminder_24h_sent || !i.reminder_3h_sent) && dateLe nowDate i.interview_date)

/-- A cycle-level error entry in `processReminders`: either a forwarded
per-recipient error or the `"... reminder for interview ${id}: ..."` entry
pushed when a send reached zero recipients. -/
inductive CycleErr
  | recip (e : ErrEntry)
  | interviewFail (t : ReminderType) (id : Nat)
deriving DecidableEq, Repr

/-- State threaded through the two loops of `processReminders`:
`(db, totalSent, errors, events)`. -/
abbrev CycleState := List Interview × Nat × List CycleErr × List Event

/-- Body of each loop in `processReminders`: send, and on
`reminderResult.success` persist the flag (the write's own result is not
inspected) and accumulate `sentCount` and forwarded errors; otherwise record
the interview-level failure entry. -/
def processInterview (env : Env) (t : ReminderType) (st : CycleState)
    (i : Interview) : CycleState :=
  let db := st.1
  let r := sendReminderMessage env db i t
  if r.1.success then
    let marked := markReminderSent env db i.id t
    (marked.1, st.2.1 + r.1.sentCount,
      st.2.2.1 ++ r.1.errors.map CycleErr.recip, st.2.2.2 ++ r.2)
  else
    (db, st.2.1, st.2.2.1 ++ [CycleErr.interviewFail t i.id], st.2.2.2 ++ r.2)

/-- Aggregate report of one orchestrator cycle
(`{ success: true, totalSent, errors }`). -/
structure CycleReport where
  totalSent : Nat
  errors : List CycleErr
deriving DecidableEq, Repr

/-- Result of one cycle: the store afterwards, the report, and the trace. -/
structure CycleResult where
  db : List Interview
  report : CycleReport
  events : List Event
deriving Repr

/-- Models `ReminderManager.processReminders`: fetch candidates, classify them once,
then process the 24h list and the 3h list in order. -/
def processReminders (env : Env) (now : Int) (nowDate : String)
    (db : List Interview) : CycleResult :=
  let lists := classifyReminders env now (fetchCandidates nowDate db)
  let st0 : CycleState := (db, 0, [], [])
  let st1 := lists.interviews24h.foldl (processInterview env ReminderType.h24) st0
  let st2 := lists.interviews3h.foldl (processInterview env ReminderType.h3) st1
  { db := st2.1
    report := { totalSent := st2.2.1, errors := st2.2.2.1 }
    events := st2.2.2.2 }

/-- Models `InterviewManager.addInterview`: insert the row (both flags start false,
the schema default), then the Late-Creation Guard: if the interview is less
than 3 hours away mark the 24h reminder sent, and if less than 1 hour away
mark the 3h reminder sent as well. -/
def addInterview (env : Env) (now : Int) (db : List Interview)
    (i0 : Interview) : List Interview :=
  let row := { i0 with reminder_24h_sent := false, reminder_3h_sent := false }
  let db1 := db ++ [row]
  let d := diffHours env now row
  let db2 := if d < mkRat 3 1 then (markReminderSent env db1 row.id ReminderType.h24).1 else db1
  let db3 := if d < mkRat 1 1 then (markReminderSent env db2 row.id ReminderType.h3).1 else db2
  db3

/-- The five user-updatable columns (`fieldMap`'s codomain). -/
inductive UpdField
  | interviewee
  | interviewer
  | date
  | time
  | reason
deriving DecidableEq, Repr

/-- Models `fieldMap`: Chinese field names accepted by the update command, mapped
to database columns; anything else is rejected by `handleUpdateCommand`. -/
def fieldMap (s : String) : Option UpdField :=
  if s = "面談對象" then some UpdField.interviewee
  else if s = "面談者" then some UpdField.interviewer
  else if s = "日期" then some UpdField.date
  else if s = "時間" then some UpdField.time
  else if s = "理由" then some UpdField.reason
  else none

/-- Apply a single-column update (`updates[dbField] = value`) to a row. -/
def applyUpdate (f : UpdField) (v : String) (r : Interview) : Interview :=
  match f with
  | UpdField.interviewee => { r with interviewee_name := v }
  | UpdField.interviewer => { r with interviewer_name := v }
  | UpdField.date => { r with interview_date := v }
  | UpdField.time => { r with interview_time := v }
  | UpdField.reason => { r with reason := v }

/-- Result object of `updateInterview`: `{ success: true, data: data[0] }`
where `data` is the list of updated rows (empty when no row matched, making
`data[0]` `undefined`, modelled as `none`). -/
structure UpdateResult where
  db : List Interview
  success : Bool
  data0 : Option Interview
deriving Repr

/-- Models `InterviewManager.updateInterview`: update rows matching both the id and
the owning `user_id`, returning the first updated row (or `none`). -/
def updateInterview (db : List Interview) (userId : String) (interviewId : Nat)
    (f : UpdField) (v : String) : UpdateResult :=
  let db2 := db.map (fun r =>
    if r.id = interviewId ∧ r.user_id = userId then applyUpdate f v r else r)
  let matched := db2.filter (fun r => r.id = interviewId ∧ r.user_id = userId)
  { db := db2, success := true, data0 := matched.head? }

/-- Models `InterviewManager.deleteInterview`: delete rows matching id and owner;
the result is `{ success: true }` whether or not any row matched. -/
def deleteInterview (db : List Interview) (userId : String)
    (interviewId : Nat) : List Interview × Bool :=
  (db.filter (fun r => ¬(r.id = interviewId ∧ r.user_id = userId)), true)

/-- Models `InterviewManager.getAllUpcomingInterviews`: rows dated today or
later. -/
def getAllUpcomingInterviews (nowDate : String) (db : List Interview) :
    List Interview :=
  db.filter (fun i => dateLe nowDate i.interview_date)

/-- Send-loop body of `sendInterviewListToEveryone`: invalid recipients are
silently skipped (`continue` without an error entry), valid ones get one
push attempt. -/
def listSendToUser (env : Env) (msg : String) (st : SendState) (uid : String) :
    SendState :=
  if isValidLineUserId uid then
    if env.deliver uid then
      (st.1 + 1, st.2.1, st.2.2 ++ [Event.pushUser uid msg])
    else
      (st.1, st.2.1 ++ [ErrEntry.userDeliver uid], st.2.2 ++ [Event.pushUser uid msg])
  else
    st

def listSendToGroup (env : Env) (msg : String) (st : SendState) (gid : String) :
    SendState :=
  if isValidLineGroupId gid then
    if env.deliver gid then
      (st.1 + 1, st.2.1, st.2.2 ++ [Event.pushGroup gid msg])
    else
      (st.1, st.2.1 ++ [ErrEntry.groupDeliver gid], st.2.2 ++ [Event.pushGroup gid msg])
  else
    st

/-- Result of `sendInterviewListToEveryone` (message text elided: no claim
inspects the list-broadcast text). -/
structure ListSendResult where
  sentCount : Nat
  interviewCount : Nat
  errors : List ErrEntry
deriving Repr

/-- Models `ReminderManager.sendInterviewListToEveryone`: fetch upcoming
interviews, resolve the recipient snapshot once, push the digest to every
valid recipient. -/
def sendInterviewListToEveryone (env : Env) (nowDate : String)
    (db : List Interview) : ListSendResult × List Event :=
  let interviews := getAllUpcomingInterviews nowDate db
  let msg := "📋 全部面談提醒"
  let ids := getReminderRecipientIds env db
  let st0 : SendState := (0, [], [Event.resolveRecipients])
  let st1 := ids.1.foldl (listSendToUser env msg) st0
  let st2 := ids.2.foldl (listSendToGroup env msg) st1
  ({ sentCount := st2.1, interviewCount := interviews.length, errors := st2.2.1 }, st2.2.2)

/-- Configuration read by the `/trigger-reminders` handler:
`SUPABASE_URL` / `SUPABASE_KEY` (present-and-non-empty modelled as `some`)
and the optional `CRON_API_KEY`. -/
structure TriggerConfig where
  supabaseUrl : Option String
  supabaseKey : Option String
  cronApiKey : Option String

/-- One request to `/trigger-reminders`: the supplied `x-api-key` header or
`apiKey` query parameter, and the lower-cased `action` query parameter
(absent modelled as `""`, matching `(req.query.action || '')`). -/
structure TriggerRequest where
  apiKey : Option String
  action : String

/-- Distinct response shapes of the `/trigger-reminders` handler. -/
inductive TriggerResponse
  | configError
  | unauthorized
  | listOk (sentCount : Nat) (interviewCount : Nat) (errors : List ErrEntry)
  | remindersOk (totalSent : Nat) (errors : List CycleErr)
deriving Repr

/-- Models `app.all('/trigger-reminders')`: reject on missing store configuration,
then on API-key mismatch when a key is configured, then run either the
interview-list broadcast or the reminder cycle.  The second component
records whether the interview store was accessed (any processing ran). -/
def triggerReminders (cfg : TriggerConfig) (req : TriggerRequest) (env : Env)
    (now : Int) (nowDate : String) (db : List Interview) :
    TriggerResponse × Bool :=
  if cfg.supabaseUrl.isNone ∨ cfg.supabaseKey.isNone then
    (TriggerResponse.configError, false)
  else
    match cfg.cronApiKey with
    | some expected =>
      if req.apiKey ≠ some expected then (TriggerResponse.unauthorized, false)
      else if req.action = "interview-list" then
        let r := sendInterviewListToEveryone env nowDate db
        (TriggerResponse.listOk r.1.sentCount r.1.interviewCount r.1.errors, true)
      else
        let r := processReminders env now nowDate db
        (TriggerResponse.remindersOk r.report.totalSent r.report.errors, true)
    | none =>
      if req.action = "interview-list" then
        let r := sendInterviewListToEveryone env nowDate db
        (TriggerResponse.listOk r.1.sentCount r.1.interviewCount r.1.errors, true)
      else
        let r := processReminders env now nowDate db
        (TriggerResponse.remindersOk r.report.totalSent r.report.errors, true)

/-- The flag column belonging to a reminder kind. -/
def flagOf (t : ReminderType) (r : Interview) : Bool :=
  match t with
  | ReminderType.h24 => r.reminder_24h_sent
  | ReminderType.h3 => r.reminder_3h_sent

/-- A row transformation that keeps identity, ownership and schedule fields
and only ever turns reminder flags on, never off. -/
def PreservesKeys (g : Interview → Interview) : Prop :=
  ∀ r : Interview, (g r).id = r.id ∧ (g r).user_id = r.user_id ∧
    (g r).interview_date = r.interview_date ∧
    (g r).interview_time = r.interview_time ∧
    (r.reminder_24h_sent = true → (g r).reminder_24h_sent = true) ∧
    (r.reminder_3h_sent = true → (g r).reminder_3h_sent = true)

/-- A well-formed LINE user id: `'U'` + 32 further characters. -/
def uidOk : String := "U12345678901234567890123456789012"

def uidB : String := "U1234567890123456789012345678901b"

def uidC : String := "U1234567890123456789012345678901c"

/-- A well-formed LINE group id: `'C'` + 32 further characters. -/
def gidOk : String := "C12345678901234567890123456789012"

/-- Clock fixture: every stored date-time parses to ms 86400000, i.e. 24
hours after a cycle run at `now = 0`. -/
def cParse24 : String → String → Int := fun _ _ => 86400000

/-- Clock fixture: 2 hours after `now = 0`. -/
def cParse2h : String → String → Int := fun _ _ => 7200000

def cIv2 : Interview :=
  { id := 1, user_id := uidOk, interviewee_name := "約翰", interviewer_name := "陳",
    interview_date := "2024-01-02", interview_time := "00:00:00", reason := "面談",
    reminder_24h_sent := false, reminder_3h_sent := false }

/-- Three tracked recipients of which only `uidOk` deliveries succeed. -/
def cEnv2 : Env :=
  { parseMs := cParse24
    lineUsers := [(uidOk, true), (uidB, true), (uidC, true)]
    lineGroups := []
    presidentId := none
    envGroupId := none
    envGroupIds := []
    deliver := fun s => s == uidOk
    markOk := fun _ _ => true }

def cDb2 : List Interview := [cIv2]

/-- One tracked recipient, all deliveries and writes succeed. -/
def cEnv4 : Env :=
  { parseMs := cParse24
    lineUsers := [(uidOk, true)]
    lineGroups := []
    presidentId := none
    envGroupId := none
    envGroupIds := []
    deliver := fun _ => true
    markOk := fun _ _ => true }

/-- Like `cEnv4` but every flag write fails. -/
def cEnv7 : Env :=
  { parseMs := cParse24
    lineUsers := [(uidOk, true)]
    lineGroups := []
    presidentId := none
    envGroupId := none
    envGroupIds := []
    deliver := fun _ => true
    markOk := fun _ _ => false }

/-- A tracked malformed recipient id alongside a valid one. -/
def cEnv6 : Env :=
  { parseMs := cParse24
    lineUsers := [("bad", true), (uidOk, true)]
    lineGroups := [("alsobad", true)]
    presidentId := none
    envGroupId := none
    envGroupIds := []
    deliver := fun _ => true
    markOk := fun _ _ => true }

def cDb8 : List Interview := [cIv2, { cIv2 with id := 2 }]

def cIv5 : Interview := { cIv2 with reminder_24h_sent := true }

def cEnv3 : Env :=
  { parseMs := cParse2h
    lineUsers := [(uidOk, true)]
    lineGroups := []
    presidentId := none
    envGroupId := none
    envGroupIds := []
    deliver := fun _ => true
    markOk := fun _ _ => true }

theorem preservesKeys_id : PreservesKeys (fun r => r) := by
  intro r
  exact ⟨rfl, rfl, rfl, rfl, fun h => h, fun h => h⟩

theorem preservesKeys_comp {g1 g2 : Interview → Interview}
    (h1 : PreservesKeys g1) (h2 : PreservesKeys g2) :
    PreservesKeys (fun r => g2 (g1 r)) := by
  intro r
  rcases h1 r with ⟨a1, b1, c1, d1, e1, f1⟩
  rcases h2 (g1 r) with ⟨a2, b2, c2, d2, e2, f2⟩
  exact ⟨a2.trans a1, b2.trans b1, c2.trans c1, d2.trans d1,
    fun h => e2 (e1 h), fun h => f2 (f1 h)⟩

theorem preservesKeys_setFlagIf (t : ReminderType) (interviewId : Nat) :
    PreservesKeys (fun r => if r.id = interviewId then setFlag t r else r) := by
  intro r
  by_cases h : r.id = interviewId <;> cases t <;>
    simp [h, setFlag]

/-- `markReminderSent` only rewrites rows pointwise: it is a map of a
key-preserving, flag-monotone row function (the identity when the write
fails). -/
theorem markReminderSent_shape (env : Env) (db : List Interview)
    (interviewId : Nat) (t : ReminderType) :
    ∃ g, PreservesKeys g ∧ (markReminderSent env db interviewId t).1 = db.map g := by
  unfold markReminderSent
  by_cases h : env.markOk interviewId t = true
  · exact ⟨_, preservesKeys_setFlagIf t interviewId, by simp [h]⟩
  · refine ⟨fun r => r, preservesKeys_id, ?_⟩
    simp [h]

/-- A successful flag write establishes the flag on every row with the
written id. -/
theorem markReminderSent_establishes (env : Env) (db : List Interview)
    (interviewId : Nat) (t : ReminderType) (hok : env.markOk interviewId t = true) :
    ∀ r ∈ (markReminderSent env db interviewId t).1, r.id = interviewId →
      flagOf t r = true := by
  intro r hr hid
  unfold markReminderSent at hr
  rw [hok] at hr
  simp only [if_true] at hr
  rcases List.mem_map.mp hr with ⟨r0, _, rfl⟩
  by_cases h0 : r0.id = interviewId
  · cases t <;> simp [h0, setFlag, flagOf]
  · simp only [h0, if_false] at hid ⊢

/-- Rows' `user_id` projection is unchanged by a key-preserving map, so the
recipient snapshot resolved from the store is unchanged. -/
theorem getRecipients_map_invariant (env : Env) (db : List Interview)
    {g : Interview → Interview} (hg : PreservesKeys g) :
    getReminderRecipientIds env (db.map g) = getReminderRecipientIds env db := by
  unfold getReminderRecipientIds
  have huser : (db.map g).map (fun i => i.user_id) = db.map (fun i => i.user_id) := by
    rw [List.map_map]
    exact List.map_congr_left (fun r _ => (hg r).2.1)
  rw [huser]

/-- `sendReminderMessage` reads the store only through the recipient
snapshot, so it is unchanged by a key-preserving map of the store. -/
theorem sendReminderMessage_map_invariant (env : Env) (db : List Interview)
    {g : Interview → Interview} (hg : PreservesKeys g) (i : Interview)
    (t : ReminderType) :
    sendReminderMessage env (db.map g) i t = sendReminderMessage env db i t := by
  unfold sendReminderMessage
  rw [getRecipients_map_invariant env db hg]

/-- Structure of one orchestrator loop step: the store evolves only by a
key-preserving, flag-monotone pointwise map. -/
theorem processInterview_shape (env : Env) (t : ReminderType) (st : CycleState)
    (i : Interview) :
    ∃ g, PreservesKeys g ∧ (processInterview env t st i).1 = st.1.map g := by
  unfold processInterview
  by_cases h : (sendReminderMessage env st.1 i t).1.success = true
  · rcases markReminderSent_shape env st.1 i.id t with ⟨g, hg, hmap⟩
    exact ⟨g, hg, by simp [h, hmap]⟩
  · refine ⟨fun r => r, preservesKeys_id, ?_⟩
    rw [Bool.not_eq_true] at h
    simp [h]

/-- Structure of a whole orchestrator loop. -/
theorem processFold_shape (env : Env) (t : ReminderType) (L : List Interview) :
    ∀ st : CycleState, ∃ g, PreservesKeys g ∧
      (L.foldl (processInterview env t) st).1 = st.1.map g := by
  induction L with
  | nil =>
    intro st
    exact ⟨fun r => r, preservesKeys_id, by simp⟩
  | cons x rest ih =>
    intro st
    rcases processInterview_shape env t st x with ⟨g1, hg1, h1⟩
    rcases ih (processInterview env t st x) with ⟨g2, hg2, h2⟩
    refine ⟨fun r => g2 (g1 r), preservesKeys_comp hg1 hg2, ?_⟩
    rw [List.foldl_cons, h2, h1, List.map_map]
    rfl

theorem flagOf_mono {g : Interview → Interview} (hg : PreservesKeys g)
    (t : ReminderType) (r : Interview) (h : flagOf t r = true) :
    flagOf t (g r) = true := by
  rcases hg r with ⟨_, _, _, _, e24, e3⟩
  cases t
  · exact e24 h
  · exact e3 h

/-- Every interview of the processed list whose send succeeded and whose
write succeeded ends with its flag set on every matching row. -/
theorem processFold_establishes (env : Env) (t : ReminderType) (L : List Interview) :
    ∀ st : CycleState,
      (∀ i ∈ L, (sendReminderMessage env st.1 i t).1.success = true ∧
        env.markOk i.id t = true) →
      ∀ i ∈ L, ∀ r ∈ (L.foldl (processInterview env t) st).1, r.id = i.id →
        flagOf t r = true := by
  induction L with
  | nil =>
    intro st _ i hi
    exact absurd hi (List.not_mem_nil i)
  | cons x rest ih =>
    intro st hH i hi r hr hid
    have hx := hH x (List.mem_cons_self x rest)
    -- the step on x takes the success branch and persists the flag
    have hstep : (processInterview env t st x).1 =
        (markReminderSent env st.1 x.id t).1 := by
      unfold processInterview
      simp [hx.1]
    have hx_flag : ∀ r2 ∈ (processInterview env t st x).1, r2.id = x.id →
        flagOf t r2 = true := by
      rw [hstep]
      exact markReminderSent_establishes env st.1 x.id t hx.2
    -- the step preserves the store shape, so the hypothesis transfers to rest
    rcases processInterview_shape env t st x with ⟨g1, hg1, h1⟩
    have hH2 : ∀ i ∈ rest, (sendReminderMessage env
        (processInterview env t st x).1 i t).1.success = true ∧
        env.markOk i.id t = true := by
      intro j hj
      have := hH j (List.mem_cons_of_mem x hj)
      rw [h1, sendReminderMessage_map_invariant env st.1 hg1]
      exact this
    rw [List.foldl_cons] at hr
    rcases List.mem_cons.mp hi with hix | hirest
    · -- i = x : flag was set by the step and is preserved by the rest of the fold
      subst hix
      rcases processFold_shape env t rest (processInterview env t st i) with ⟨g2, hg2, h2⟩
      rw [h2] at hr
      rcases List.mem_map.mp hr with ⟨r0, hr0, rfl⟩
      have hid0 : r0.id = i.id := by
        rw [(hg2 r0).1] at hid
        exact hid
      exact flagOf_mono hg2 t r0 (hx_flag r0 hr0 hid0)
    · exact ih (processInterview env t st x) hH2 i hirest r hr hid

theorem diffHours_preserved {g : Interview → Interview} (hg : PreservesKeys g)
    (env : Env) (now : Int) (r : Interview) :
    diffHours env now (g r) = diffHours env now r := by
  unfold diffHours
  rw [(hg r).2.2.1, (hg r).2.2.2.1]

/-- C4: running the orchestrator cycle twice in immediate succession with the same now and no new interviews sends zero notifications on the second run, provided every interview classified in the first run had at least one successful delivery and a successful flag write. -/
theorem claim_C4 (env : Env) (now : Int) (nowDate : String) (db : List Interview)
    (H24 : ∀ i ∈ (classifyReminders env now (fetchCandidates nowDate db)).interviews24h,
      (sendReminderMessage env db i ReminderType.h24).1.success = true ∧
      env.markOk i.id ReminderType.h24 = true)
    (H3 : ∀ i ∈ (classifyReminders env now (fetchCandidates nowDate db)).interviews3h,
      (sendReminderMessage env db i ReminderType.h3).1.success = true ∧
      env.markOk i.id ReminderType.h3 = true) :
    (processReminders env now nowDate
      (processReminders env now nowDate db).db).report.totalSent = 0 ∧
    (processReminders env now nowDate
      (processReminders env now nowDate db).db).events = [] := by
  set lists := classifyReminders env now (fetchCandidates nowDate db) with hlists
  set st0 : CycleState := (db, 0, [], []) with hst0
  rcases processFold_shape env ReminderType.h24 lists.interviews24h st0 with ⟨g1, hg1, hm1⟩
  rcases processFold_shape env ReminderType.h3 lists.interviews3h
    (lists.interviews24h.foldl (processInterview env ReminderType.h24) st0) with ⟨g2, hg2, hm2⟩
  have hdb2 : (processReminders env now nowDate db).db =
      (lists.interviews3h.foldl (processInterview env ReminderType.h3)
        (lists.interviews24h.foldl (processInterview env ReminderType.h24) st0)).1 := rfl
  have hG : (processReminders env now nowDate db).db = db.map (fun r => g2 (g1 r)) := by
    rw [hdb2, hm2, hm1, List.map_map]
    rfl
  have hGK : PreservesKeys (fun r => g2 (g1 r)) := preservesKeys_comp hg1 hg2
  have B24 : ∀ i ∈ lists.interviews24h, ∀ r ∈ (processReminders env now nowDate db).db,
      r.id = i.id → flagOf ReminderType.h24 r = true := by
    intro i hi r hr hid
    rw [hdb2, hm2] at hr
    rcases List.mem_map.mp hr with ⟨r0, hr0, rfl⟩
    have hid0 : r0.id = i.id := by rw [(hg2 r0).1] at hid; exact hid
    exact flagOf_mono hg2 _ r0
      (processFold_establishes env ReminderType.h24 lists.interviews24h st0 H24 i hi r0 hr0 hid0)
  have B3 : ∀ i ∈ lists.interviews3h, ∀ r ∈ (processReminders env now nowDate db).db,
      r.id = i.id → flagOf ReminderType.h3 r = true := by
    intro i hi r hr hid
    have H3b : ∀ i ∈ lists.interviews3h,
        (sendReminderMessage env
          (lists.interviews24h.foldl (processInterview env ReminderType.h24) st0).1
          i ReminderType.h3).1.success = true ∧
        env.markOk i.id ReminderType.h3 = true := by
      intro j hj
      rw [hm1]
      rw [sendReminderMessage_map_invariant env db hg1]
      exact H3 j hj
    rw [hdb2] at hr
    exact processFold_establishes env ReminderType.h3 lists.interviews3h _ H3b i hi r hr hid
  have E24 : (classifyReminders env now
      (fetchCandidates nowDate (processReminders env now nowDate db).db)).interviews24h = [] := by
    rw [classifyReminders]
    rw [List.filter_eq_nil_iff]
    intro r2 hr2
    rcases List.mem_filter.mp hr2 with ⟨hr2mem, hfetch⟩
    rw [hG] at hr2mem
    rcases List.mem_map.mp hr2mem with ⟨r, hrdb, rfl⟩
    intro hpred
    rw [Bool.and_eq_true, Bool.and_eq_true] at hpred
    obtain ⟨⟨hflag, hpb⟩, hpc⟩ := hpred
    rw [Bool.not_eq_true'] at hflag
    rw [Bool.and_eq_true] at hfetch
    obtain ⟨_, hdle⟩ := hfetch
    have hdiff : diffHours env now (g2 (g1 r)) = diffHours env now r :=
      diffHours_preserved hGK env now r
    have hdate : (g2 (g1 r)).interview_date = r.interview_date := (hGK r).2.2.1
    have hflag_r : r.reminder_24h_sent = false := by
      by_contra hcon
      rw [Bool.not_eq_false] at hcon
      rw [(hGK r).2.2.2.2.1 hcon] at hflag
      simp at hflag
    have hfetch_r : r ∈ fetchCandidates nowDate db := by
      rw [fetchCandidates, List.mem_filter]
      refine ⟨hrdb, ?_⟩
      rw [hdate] at hdle
      rw [hflag_r, hdle]
      rfl
    rw [hdiff] at hpb hpc
    have hir : r ∈ lists.interviews24h := by
      rw [hlists, classifyReminders, List.mem_filter]
      refine ⟨hfetch_r, ?_⟩
      rw [hflag_r, hpb, hpc]
      rfl
    have hfin := B24 r hir (g2 (g1 r))
      (by rw [hG]; exact List.mem_map.mpr ⟨r, hrdb, rfl⟩) (hGK r).1
    rw [flagOf] at hfin
    rw [hfin] at hflag
    simp at hflag
  have E3 : (classifyReminders env now
      (fetchCandidates nowDate (processReminders env now nowDate db).db)).interviews3h = [] := by
    rw [classifyReminders]
    rw [List.filter_eq_nil_iff]
    intro r2 hr2
    rcases List.mem_filter.mp hr2 with ⟨hr2mem, hfetch⟩
    rw [hG] at hr2mem
    rcases List.mem_map.mp hr2mem with ⟨r, hrdb, rfl⟩
    intro hpred
    rw [Bool.and_eq_true, Bool.and_eq_true] at hpred
    obtain ⟨⟨hflag, hpb⟩, hpc⟩ := hpred
    rw [Bool.not_eq_true'] at hflag
    rw [Bool.and_eq_true] at hfetch
    obtain ⟨_, hdle⟩ := hfetch
    have hdiff : diffHours env now (g2 (g1 r)) = diffHours env now r :=
      diffHours_preserved hGK env now r
    have hdate : (g2 (g1 r)).interview_date = r.interview_date := (hGK r).2.2.1
    have hflag_r : r.reminder_3h_sent = false := by
      by_contra hcon
      rw [Bool.not_eq_false] at hcon
      rw [(hGK r).2.2.2.2.2 hcon] at hflag
      simp at hflag
    have hfetch_r : r ∈ fetchCandidates nowDate db := by
      rw [fetchCandidates, List.mem_filter]
      refine ⟨hrdb, ?_⟩
      rw [hdate] at hdle
      rw [hflag_r, hdle]
      simp
    rw [hdiff] at hpb hpc
    have hir : r ∈ lists.interviews3h := by
      rw [hlists, classifyReminders, List.mem_filter]
      refine ⟨hfetch_r, ?_⟩
      rw [hflag_r, hpb, hpc]
      rfl
    have hfin := B3 r hir (g2 (g1 r))
      (by rw [hG]; exact List.mem_map.mpr ⟨r, hrdb, rfl⟩) (hGK r).1
    rw [flagOf] at hfin
    rw [hfin] at hflag
    simp at hflag
  constructor
  · show (processReminders env now nowDate (processReminders env now nowDate db).db).report.totalSent = 0
    rw [processReminders]
    simp only [E24, E3, List.foldl_nil]
  · show (processReminders env now nowDate (processReminders env now nowDate db).db).events = []
    rw [processReminders]
    simp only [E24, E3, List.foldl_nil]

theorem applyUpdate_flags (f : UpdField) (v : String) (r : Interview) :
    (applyUpdate f v r).reminder_24h_sent = r.reminder_24h_sent ∧
    (applyUpdate f v r).reminder_3h_sent = r.reminder_3h_sent := by
  cases f <;> simp [applyUpdate]

theorem map_flag_mono {db : List Interview} {g : Interview → Interview}
    (hg : PreservesKeys g) (k : Nat) (hk : k < db.length) :
    ∃ hk2 : k < (db.map g).length,
      ((db.get ⟨k, hk⟩).reminder_24h_sent = true →
        ((db.map g).get ⟨k, hk2⟩).reminder_24h_sent = true) ∧
      ((db.get ⟨k, hk⟩).reminder_3h_sent = true →
        ((db.map g).get ⟨k, hk2⟩).reminder_3h_sent = true) := by
  refine ⟨by simpa using hk, ?_, ?_⟩ <;>
    · intro h
      simp only [List.get_eq_getElem, List.getElem_map]
      first
        | exact (hg _).2.2.2.2.1 h
        | exact (hg _).2.2.2.2.2 h

/-- A full orchestrator cycle evolves the store only by a key-preserving,
flag-monotone pointwise map. -/
theorem processReminders_shape (env : Env) (now : Int) (nowDate : String)
    (db : List Interview) :
    ∃ g, PreservesKeys g ∧ (processReminders env now nowDate db).db = db.map g := by
  set lists := classifyReminders env now (fetchCandidates nowDate db)
  set st0 : CycleState := (db, 0, [], [])
  rcases processFold_shape env ReminderType.h24 lists.interviews24h st0 with ⟨g1, hg1, hm1⟩
  rcases processFold_shape env ReminderType.h3 lists.interviews3h
    (lists.interviews24h.foldl (processInterview env ReminderType.h24) st0) with ⟨g2, hg2, hm2⟩
  refine ⟨fun r => g2 (g1 r), preservesKeys_comp hg1 hg2, ?_⟩
  show (lists.interviews3h.foldl (processInterview env ReminderType.h3)
    (lists.interviews24h.foldl (processInterview env ReminderType.h24) st0)).1 = _
  rw [hm2, hm1, List.map_map]
  rfl

/-- `addInterview` is a key-preserving flag map over the store with the new
row appended. -/
theorem addInterview_shape (env : Env) (now : Int) (db : List Interview)
    (i0 : Interview) :
    ∃ g, PreservesKeys g ∧ addInterview env now db i0 =
      (db ++ [{ i0 with reminder_24h_sent := false, reminder_3h_sent := false }]).map g := by
  unfold addInterview
  set row : Interview := { i0 with reminder_24h_sent := false, reminder_3h_sent := false }
  by_cases hc3 : diffHours env now row < mkRat 3 1 <;>
    by_cases hc1 : diffHours env now row < mkRat 1 1 <;>
      simp only [hc3, hc1, if_true, if_false, ite_true, ite_false]
  · rcases markReminderSent_shape env (db ++ [row]) row.id ReminderType.h24 with ⟨ga, hga, hma⟩
    rcases markReminderSent_shape env ((markReminderSent env (db ++ [row]) row.id
      ReminderType.h24).1) row.id ReminderType.h3 with ⟨gb, hgb, hmb⟩
    refine ⟨fun r => gb (ga r), preservesKeys_comp hga hgb, ?_⟩
    rw [hmb, hma, List.map_map]
    rfl
  · rcases markReminderSent_shape env (db ++ [row]) row.id ReminderType.h24 with ⟨ga, hga, hma⟩
    exact ⟨ga, hga, hma⟩
  · rcases markReminderSent_shape env (db ++ [row]) row.id ReminderType.h3 with ⟨gb, hgb, hmb⟩
    exact ⟨gb, hgb, hmb⟩
  · exact ⟨fun r => r, preservesKeys_id, by simp⟩

theorem append_flag_mono (db : List Interview) (row : Interview)
    {g : Interview → Interview} (hg : PreservesKeys g) (k : Nat) (hk : k < db.length) :
    ∃ hk2 : k < ((db ++ [row]).map g).length,
      ((db.get ⟨k, hk⟩).reminder_24h_sent = true →
        (((db ++ [row]).map g).get ⟨k, hk2⟩).reminder_24h_sent = true) ∧
      ((db.get ⟨k, hk⟩).reminder_3h_sent = true →
        (((db ++ [row]).map g).get ⟨k, hk2⟩).reminder_3h_sent = true) := by
  have hk1 : k < (db ++ [row]).length := by
    simp
    omega
  rcases map_flag_mono hg k hk1 with ⟨hk2, h24, h3⟩
  have hsame : (db ++ [row]).get ⟨k, hk1⟩ = db.get ⟨k, hk⟩ := by
    simp only [List.get_eq_getElem]
    rw [List.getElem_append_left]
  rw [hsame] at h24 h3
  exact ⟨hk2, h24, h3⟩

/-- C5: reminder flags are monotonic across every reachable operation - the flag write, the command-layer field update (whose five columns cannot touch the flag columns), the reminder cycle and interview creation never turn a true flag false. -/
theorem claim_C5 :
    (∀ (env : Env) (db : List Interview) (interviewId : Nat) (t : ReminderType)
      (k : Nat) (hk : k < db.length),
      ∃ hk2 : k < (markReminderSent env db interviewId t).1.length,
        ((db.get ⟨k, hk⟩).reminder_24h_sent = true →
          (((markReminderSent env db interviewId t).1).get ⟨k, hk2⟩).reminder_24h_sent = true) ∧
        ((db.get ⟨k, hk⟩).reminder_3h_sent = true →
          (((markReminderSent env db interviewId t).1).get ⟨k, hk2⟩).reminder_3h_sent = true)) ∧
    (∀ (db : List Interview) (uid : String) (interviewId : Nat) (f : UpdField) (v : String)
      (k : Nat) (hk : k < db.length),
      ∃ hk2 : k < (updateInterview db uid interviewId f v).db.length,
        (((updateInterview db uid interviewId f v).db).get ⟨k, hk2⟩).reminder_24h_sent =
          (db.get ⟨k, hk⟩).reminder_24h_sent ∧
        (((updateInterview db uid interviewId f v).db).get ⟨k, hk2⟩).reminder_3h_sent =
          (db.get ⟨k, hk⟩).reminder_3h_sent) ∧
    (∀ (env : Env) (now : Int) (nowDate : String) (db : List Interview)
      (k : Nat) (hk : k < db.length),
      ∃ hk2 : k < (processReminders env now nowDate db).db.length,
        ((db.get ⟨k, hk⟩).reminder_24h_sent = true →
          (((processReminders env now nowDate db).db).get ⟨k, hk2⟩).reminder_24h_sent = true) ∧
        ((db.get ⟨k, hk⟩).reminder_3h_sent = true →
          (((processReminders env now nowDate db).db).get ⟨k, hk2⟩).reminder_3h_sent = true)) ∧
    (∀ (env : Env) (now : Int) (db : List Interview) (i0 : Interview)
      (k : Nat) (hk : k < db.length),
      ∃ hk2 : k < (addInterview env now db i0).length,
        ((db.get ⟨k, hk⟩).reminder_24h_sent = true →
          ((addInterview env now db i0).get ⟨k, hk2⟩).reminder_24h_sent = true) ∧
        ((db.get ⟨k, hk⟩).reminder_3h_sent = true →
          ((addInterview env now db i0).get ⟨k, hk2⟩).reminder_3h_sent = true)) ∧
    (∀ (f : UpdField) (v : String) (r : Interview),
      (applyUpdate f v r).reminder_24h_sent = r.reminder_24h_sent ∧
      (applyUpdate f v r).reminder_3h_sent = r.reminder_3h_sent) := by
  refine ⟨?_, ?_, ?_, ?_, applyUpdate_flags⟩
  · intro env db interviewId t k hk
    rcases markReminderSent_shape env db interviewId t with ⟨g, hg, hm⟩
    rw [hm]
    exact map_flag_mono hg k hk
  · intro db uid interviewId f v k hk
    refine ⟨by simpa [updateInterview] using hk, ?_, ?_⟩ <;>
      · simp only [updateInterview, List.get_eq_getElem, List.getElem_map]
        by_cases h : (db.get ⟨k, hk⟩).id = interviewId ∧ (db.get ⟨k, hk⟩).user_id = uid <;>
          simp only [List.get_eq_getElem] at h <;>
            simp [h, (applyUpdate_flags f v _).1, (applyUpdate_flags f v _).2]
  · intro env now nowDate db k hk
    rcases processReminders_shape env now nowDate db with ⟨g, hg, hm⟩
    rw [hm]
    exact map_flag_mono hg k hk
  · intro env now db i0 k hk
    rcases addInterview_shape env now db i0 with ⟨g, hg, hm⟩
    rw [hm]
    exact append_flag_mono db _ hg k hk

theorem userFold_spec (env : Env) (msg : String) (uids : List String) :
    ∀ st : SendState,
      (∀ e ∈ (uids.foldl (sendToUser env msg) st).2.2, e ∈ st.2.2 ∨
        ∃ id, id ∈ uids ∧ isValidLineUserId id = true ∧ e = Event.pushUser id msg) ∧
      (∀ er ∈ st.2.1, er ∈ (uids.foldl (sendToUser env msg) st).2.1) ∧
      (∀ uid ∈ uids, isValidLineUserId uid = false →
        ErrEntry.userInvalid uid ∈ (uids.foldl (sendToUser env msg) st).2.1) ∧
      (∀ er ∈ (uids.foldl (sendToUser env msg) st).2.1, er ∈ st.2.1 ∨
        (∃ id, id ∈ uids ∧ isValidLineUserId id = false ∧ er = ErrEntry.userInvalid id) ∨
        (∃ id, id ∈ uids ∧ isValidLineUserId id = true ∧ er = ErrEntry.userDeliver id)) := by
  induction uids with
  | nil =>
    intro st
    refine ⟨fun e he => Or.inl he, fun er her => her, ?_, fun er her => Or.inl her⟩
    intro uid huid
    exact absurd huid (List.not_mem_nil uid)
  | cons x rest ih =>
    intro st
    rcases ih (sendToUser env msg st x) with ⟨ihev, ihsub, ihinv, iherr⟩
    refine ⟨?_, ?_, ?_, ?_⟩
    · intro e he
      rcases ihev e he with h1 | ⟨id, hid, hval, hid2⟩
      · unfold sendToUser at h1
        by_cases hv : isValidLineUserId x
        · by_cases hd : env.deliver x <;>
            · simp only [hv, hd, if_true, if_false, ite_true, ite_false] at h1
              rcases List.mem_append.mp h1 with h2 | h2
              · exact Or.inl h2
              · rcases List.mem_singleton.mp h2 with rfl
                exact Or.inr ⟨x, List.mem_cons_self x rest, hv, rfl⟩
        · rw [Bool.not_eq_true] at hv
          simp only [hv, if_false, ite_false] at h1
          exact Or.inl h1
      · exact Or.inr ⟨id, List.mem_cons_of_mem x hid, hval, hid2⟩
    · intro er her
      apply ihsub
      unfold sendToUser
      by_cases hv : isValidLineUserId x
      · by_cases hd : env.deliver x <;>
          simp only [hv, hd, if_true, if_false, ite_true, ite_false] <;>
            first
              | exact her
              | exact List.mem_append.mpr (Or.inl her)
      · rw [Bool.not_eq_true] at hv
        simp only [hv, ite_false]
        exact List.mem_append.mpr (Or.inl her)
    · intro uid huid hval
      rcases List.mem_cons.mp huid with rfl | hmem
      · apply ihsub
        unfold sendToUser
        rw [hval]
        simp only [Bool.false_eq_true, if_false, ite_false]
        exact List.mem_append.mpr (Or.inr (List.mem_singleton.mpr rfl))
      · exact ihinv uid hmem hval
    · intro er her
      rcases iherr er her with h1 | ⟨id, hid, hval, hid2⟩ | ⟨id, hid, hval, hid2⟩
      · unfold sendToUser at h1
        by_cases hv : isValidLineUserId x
        · by_cases hd : env.deliver x
          · simp only [hv, hd, if_true, ite_true] at h1
            exact Or.inl h1
          · rw [Bool.not_eq_true] at hd
            simp only [hv, hd, if_true, ite_true, Bool.false_eq_true, if_false, ite_false] at h1
            rcases List.mem_append.mp h1 with h2 | h2
            · exact Or.inl h2
            · rcases List.mem_singleton.mp h2 with rfl
              exact Or.inr (Or.inr ⟨x, List.mem_cons_self x rest, hv, rfl⟩)
        · rw [Bool.not_eq_true] at hv
          simp only [hv, Bool.false_eq_true, if_false, ite_false] at h1
          rcases List.mem_append.mp h1 with h2 | h2
          · exact Or.inl h2
          · rcases List.mem_singleton.mp h2 with rfl
            exact Or.inr (Or.inl ⟨x, List.mem_cons_self x rest, hv, rfl⟩)
      · exact Or.inr (Or.inl ⟨id, List.mem_cons_of_mem x hid, hval, hid2⟩)
      · exact Or.inr (Or.inr ⟨id, List.mem_cons_of_mem x hid, hval, hid2⟩)

theorem groupFold_spec (env : Env) (msg : String) (gids : List String) :
    ∀ st : SendState,
      (∀ e ∈ (gids.foldl (sendToGroup env msg) st).2.2, e ∈ st.2.2 ∨
        ∃ id, id ∈ gids ∧ isValidLineGroupId id = true ∧ e = Event.pushGroup id msg) ∧
      (∀ er ∈ st.2.1, er ∈ (gids.foldl (sendToGroup env msg) st).2.1) ∧
      (∀ uid ∈ gids, isValidLineGroupId uid = false →
        ErrEntry.groupInvalid uid ∈ (gids.foldl (sendToGroup env msg) st).2.1) ∧
      (∀ er ∈ (gids.foldl (sendToGroup env msg) st).2.1, er ∈ st.2.1 ∨
        (∃ id, id ∈ gids ∧ isValidLineGroupId id = false ∧ er = ErrEntry.groupInvalid id) ∨
        (∃ id, id ∈ gids ∧ isValidLineGroupId id = true ∧ er = ErrEntry.groupDeliver id)) := by
  induction gids with
  | nil =>
    intro st
    refine ⟨fun e he => Or.inl he, fun er her => her, ?_, fun er her => Or.inl her⟩
    intro gid hgid
    exact absurd hgid (List.not_mem_nil gid)
  | cons x rest ih =>
    intro st
    rcases ih (sendToGroup env msg st x) with ⟨ihev, ihsub, ihinv, iherr⟩
    refine ⟨?_, ?_, ?_, ?_⟩
    · intro e he
      rcases ihev e he with h1 | ⟨id, hid, hval, hid2⟩
      · unfold sendToGroup at h1
        by_cases hv : isValidLineGroupId x
        · by_cases hd : env.deliver x <;>
            · simp only [hv, hd, if_true, if_false, ite_true, ite_false] at h1
              rcases List.mem_append.mp h1 with h2 | h2
              · exact Or.inl h2
              · rcases List.mem_singleton.mp h2 with rfl
                exact Or.inr ⟨x, List.mem_cons_self x rest, hv, rfl⟩
        · rw [Bool.not_eq_true] at hv
          simp only [hv, if_false, ite_false] at h1
          exact Or.inl h1
      · exact Or.inr ⟨id, List.mem_cons_of_mem x hid, hval, hid2⟩
    · intro er her
      apply ihsub
      unfold sendToGroup
      by_cases hv : isValidLineGroupId x
      · by_cases hd : env.deliver x <;>
          simp only [hv, hd, if_true, if_false, ite_true, ite_false] <;>
            first
              | exact her
              | exact List.mem_append.mpr (Or.inl her)
      · rw [Bool.not_eq_true] at hv
        simp only [hv, ite_false]
        exact List.mem_append.mpr (Or.inl her)
    · intro gid hgid hval
      rcases List.mem_cons.mp hgid with rfl | hmem
      · apply ihsub
        unfold sendToGroup
        rw [hval]
        simp only [Bool.false_eq_true, if_false, ite_false]
        exact List.mem_append.mpr (Or.inr (List.mem_singleton.mpr rfl))
      · exact ihinv gid hmem hval
    · intro er her
      rcases iherr er her with h1 | ⟨id, hid, hval, hid2⟩ | ⟨id, hid, hval, hid2⟩
      · unfold sendToGroup at h1
        by_cases hv : isValidLineGroupId x
        · by_cases hd : env.deliver x
          · simp only [hv, hd, if_true, ite_true] at h1
            exact Or.inl h1
          · rw [Bool.not_eq_true] at hd
            simp only [hv, hd, if_true, ite_true, Bool.false_eq_true, if_false, ite_false] at h1
            rcases List.mem_append.mp h1 with h2 | h2
            · exact Or.inl h2
            · rcases List.mem_singleton.mp h2 with rfl
              exact Or.inr (Or.inr ⟨x, List.mem_cons_self x rest, hv, rfl⟩)
        · rw [Bool.not_eq_true] at hv
          simp only [hv, Bool.false_eq_true, if_false, ite_false] at h1
          rcases List.mem_append.mp h1 with h2 | h2
          · exact Or.inl h2
          · rcases List.mem_singleton.mp h2 with rfl
            exact Or.inr (Or.inl ⟨x, List.mem_cons_self x rest, hv, rfl⟩)
      · exact Or.inr (Or.inl ⟨id, List.mem_cons_of_mem x hid, hval, hid2⟩)
      · exact Or.inr (Or.inr ⟨id, List.mem_cons_of_mem x hid, hval, hid2⟩)

/-- C6: recipient identifiers failing the namespace format check are never passed to the dispatch channel and are recorded as validation errors, not delivery errors; every dispatched push and every delivery error concerns a well-formed identifier of its namespace. -/
theorem claim_C6 (env : Env) (db : List Interview) (i : Interview) (t : ReminderType) :
    (∀ uid ∈ (getReminderRecipientIds env db).1, isValidLineUserId uid = false →
      (∀ m, Event.pushUser uid m ∉ (sendReminderMessage env db i t).2) ∧
      ErrEntry.userInvalid uid ∈ (sendReminderMessage env db i t).1.errors) ∧
    (∀ gid ∈ (getReminderRecipientIds env db).2, isValidLineGroupId gid = false →
      (∀ m, Event.pushGroup gid m ∉ (sendReminderMessage env db i t).2) ∧
      ErrEntry.groupInvalid gid ∈ (sendReminderMessage env db i t).1.errors) ∧
    (∀ id m, Event.pushUser id m ∈ (sendReminderMessage env db i t).2 →
      isValidLineUserId id = true) ∧
    (∀ id m, Event.pushGroup id m ∈ (sendReminderMessage env db i t).2 →
      isValidLineGroupId id = true) ∧
    (∀ id, ErrEntry.userDeliver id ∈ (sendReminderMessage env db i t).1.errors →
      isValidLineUserId id = true) ∧
    (∀ id, ErrEntry.groupDeliver id ∈ (sendReminderMessage env db i t).1.errors →
      isValidLineGroupId id = true) := by
  set msg := reminderMessageText i t with hmsg
  set uids := (getReminderRecipientIds env db).1 with huids
  set gids := (getReminderRecipientIds env db).2 with hgids
  set st0 : SendState := (0, [], [Event.resolveRecipients]) with hst0
  set st1 := uids.foldl (sendToUser env msg) st0 with hst1
  set st2 := gids.foldl (sendToGroup env msg) st1 with hst2
  have hev : (sendReminderMessage env db i t).2 = st2.2.2 := rfl
  have herr : (sendReminderMessage env db i t).1.errors = st2.2.1 := rfl
  rcases userFold_spec env msg uids st0 with ⟨uev, usub, uinv, uerr⟩
  rcases groupFold_spec env msg gids st1 with ⟨gev, gsub, ginv, gerr⟩
  have hPushUserValid : ∀ id m, Event.pushUser id m ∈ st2.2.2 →
      isValidLineUserId id = true := by
    intro id m hmem
    rcases gev _ hmem with h1 | ⟨id2, _, _, hcon⟩
    · rcases uev _ h1 with h2 | ⟨id2, _, hval, heq⟩
      · rw [hst0] at h2
        rcases List.mem_singleton.mp h2 with h3
        exact absurd h3 (by intro h4; cases h4)
      · cases heq
        exact hval
    · exact absurd hcon (by intro h4; cases h4)
  have hPushGroupValid : ∀ id m, Event.pushGroup id m ∈ st2.2.2 →
      isValidLineGroupId id = true := by
    intro id m hmem
    rcases gev _ hmem with h1 | ⟨id2, _, hval, heq⟩
    · rcases uev _ h1 with h2 | ⟨id2, _, _, hcon⟩
      · rw [hst0] at h2
        rcases List.mem_singleton.mp h2 with h3
        exact absurd h3 (by intro h4; cases h4)
      · exact absurd hcon (by intro h4; cases h4)
    · cases heq
      exact hval
  refine ⟨?_, ?_, ?_, ?_, ?_, ?_⟩
  · intro uid hmem hval
    constructor
    · intro m hcon
      rw [hev] at hcon
      rw [hPushUserValid uid m hcon] at hval
      cases hval
    · rw [herr]
      exact gsub _ (uinv uid hmem hval)
  · intro gid hmem hval
    constructor
    · intro m hcon
      rw [hev] at hcon
      rw [hPushGroupValid gid m hcon] at hval
      cases hval
    · rw [herr]
      exact ginv gid hmem hval
  · intro id m hmem
    rw [hev] at hmem
    exact hPushUserValid id m hmem
  · intro id m hmem
    rw [hev] at hmem
    exact hPushGroupValid id m hmem
  · intro id hmem
    rw [herr] at hmem
    rcases gerr _ hmem with h1 | ⟨id2, _, _, hcon⟩ | ⟨id2, _, _, hcon⟩
    · rcases uerr _ h1 with h2 | ⟨id2, _, _, hcon⟩ | ⟨id2, _, hval, heq⟩
      · rw [hst0] at h2
        exact absurd h2 (List.not_mem_nil _)
      · exact absurd hcon (by intro h4; cases h4)
      · cases heq
        exact hval
    · exact absurd hcon (by intro h4; cases h4)
    · exact absurd hcon (by intro h4; cases h4)
  · intro id hmem
    rw [herr] at hmem
    rcases gerr _ hmem with h1 | ⟨id2, _, _, hcon⟩ | ⟨id2, _, hval, heq⟩
    · rcases uerr _ h1 with h2 | ⟨id2, _, _, hcon⟩ | ⟨id2, _, _, hcon⟩
      · rw [hst0] at h2
        exact absurd h2 (List.not_mem_nil _)
      · exact absurd hcon (by intro h4; cases h4)
      · exact absurd hcon (by intro h4; cases h4)
    · exact absurd hcon (by intro h4; cases h4)
    · cases heq
      exact hval

theorem userFold_resolveCount (env : Env) (msg : String) (uids : List String) :
    ∀ st : SendState,
      ((uids.foldl (sendToUser env msg) st).2.2).count Event.resolveRecipients =
        (st.2.2).count Event.resolveRecipients := by
  induction uids with
  | nil => intro st; rfl
  | cons x rest ih =>
    intro st
    rw [List.foldl_cons, ih]
    unfold sendToUser
    by_cases hv : isValidLineUserId x
    · by_cases hd : env.deliver x <;>
        simp [hv, hd, List.count_append]
    · rw [Bool.not_eq_true] at hv
      simp [hv]

theorem groupFold_resolveCount (env : Env) (msg : String) (gids : List String) :
    ∀ st : SendState,
      ((gids.foldl (sendToGroup env msg) st).2.2).count Event.resolveRecipients =
        (st.2.2).count Event.resolveRecipients := by
  induction gids with
  | nil => intro st; rfl
  | cons x rest ih =>
    intro st
    rw [List.foldl_cons, ih]
    unfold sendToGroup
    by_cases hv : isValidLineGroupId x
    · by_cases hd : env.deliver x <;>
        simp [hv, hd, List.count_append]
    · rw [Bool.not_eq_true] at hv
      simp [hv]

theorem send_resolveCount (env : Env) (db : List Interview) (i : Interview)
    (t : ReminderType) :
    ((sendReminderMessage env db i t).2).count Event.resolveRecipients = 1 := by
  show ((((getReminderRecipientIds env db).2).foldl
    (sendToGroup env (reminderMessageText i t))
    (((getReminderRecipientIds env db).1).foldl
      (sendToUser env (reminderMessageText i t))
      (0, [], [Event.resolveRecipients]))).2.2).count Event.resolveRecipients = 1
  rw [groupFold_resolveCount, userFold_resolveCount]
  rfl

theorem processInterview_resolveCount (env : Env) (t : ReminderType)
    (st : CycleState) (i : Interview) :
    ((processInterview env t st i).2.2.2).count Event.resolveRecipients =
      (st.2.2.2).count Event.resolveRecipients + 1 := by
  unfold processInterview
  by_cases h : (sendReminderMessage env st.1 i t).1.success = true
  · simp [h, List.count_append, send_resolveCount]
  · rw [Bool.not_eq_true] at h
    simp [h, List.count_append, send_resolveCount]

theorem processFold_resolveCount (env : Env) (t : ReminderType) (L : List Interview) :
    ∀ st : CycleState,
      (((L.foldl (processInterview env t) st)).2.2.2).count Event.resolveRecipients =
        (st.2.2.2).count Event.resolveRecipients + L.length := by
  induction L with
  | nil => intro st; rfl
  | cons x rest ih =>
    intro st
    rw [List.foldl_cons, ih, processInterview_resolveCount]
    simp [List.length_cons]
    omega

/-- C8 (amended): the recipient directory is resolved once per classified interview reminder, not once per cycle - the resolution count of a cycle equals the number of classified 24h entries plus classified 3h entries. -/
theorem claim_C8_amended (env : Env) (now : Int) (nowDate : String)
    (db : List Interview) :
    ((processReminders env now nowDate db).events).count Event.resolveRecipients =
      (classifyReminders env now (fetchCandidates nowDate db)).interviews24h.length +
      (classifyReminders env now (fetchCandidates nowDate db)).interviews3h.length := by
  have key : ∀ (l24 l3 db0 : List Interview),
      (((l3.foldl (processInterview env ReminderType.h3)
        (l24.foldl (processInterview env ReminderType.h24)
          (db0, 0, ([] : List CycleErr), ([] : List Event)))).2.2.2).count
            Event.resolveRecipients) = l24.length + l3.length := by
    intro l24 l3 db0
    rw [processFold_resolveCount, processFold_resolveCount]
    simp
  exact key _ _ _

/-- C2: a reminder's flag is persisted iff at least one delivery succeeded. With a successful write, zero successful deliveries leave the store unchanged (the interview stays a candidate for the next cycle) and a positive sent count sets the flag on the interview's rows; in the concrete 3-recipient scenario with 1 success and 2 failures the sent count is 1, exactly 2 errors are reported, and the flag is marked. -/
theorem claim_C2 :
    (∀ (env : Env) (t : ReminderType) (st : CycleState) (i : Interview),
      env.markOk i.id t = true →
      ((sendReminderMessage env st.1 i t).1.sentCount = 0 →
        (processInterview env t st i).1 = st.1) ∧
      (0 < (sendReminderMessage env st.1 i t).1.sentCount →
        (processInterview env t st i).1 =
          st.1.map (fun r => if r.id = i.id then setFlag t r else r))) ∧
    ((sendReminderMessage cEnv2 cDb2 cIv2 ReminderType.h24).1.sentCount = 1 ∧
     (sendReminderMessage cEnv2 cDb2 cIv2 ReminderType.h24).1.errors.length = 2 ∧
     ∀ r ∈ (processInterview cEnv2 ReminderType.h24 (cDb2, 0, [], []) cIv2).1,
       r.reminder_24h_sent = true) := by
  constructor
  · intro env t st i hok
    have hs : (sendReminderMessage env st.1 i t).1.success =
        decide (0 < (sendReminderMessage env st.1 i t).1.sentCount) := rfl
    constructor
    · intro hzero
      unfold processInterview
      have hsucc : (sendReminderMessage env st.1 i t).1.success = false := by
        rw [hs, hzero]
        rfl
      simp [hsucc]
    · intro hpos
      unfold processInterview
      have hsucc : (sendReminderMessage env st.1 i t).1.success = true := by
        rw [hs]
        exact decide_eq_true hpos
      simp [hsucc, markReminderSent, hok]
  · refine ⟨by decide, by decide, by decide⟩

/-- C1: an interview of the fetched candidate set is placed in the 24h list iff its 24h flag is unset and the fractional-hours difference to now lies in the closed interval [23.5, 24.5], and in the 3h list iff its 3h flag is unset and that difference lies in [2.5, 3.5]; endpoints are inclusive and values just outside are excluded. -/
theorem claim_C1 (env : Env) (now : Int) (fetched : List Interview) (i : Interview)
    (hmem : i ∈ fetched) :
    (i ∈ (classifyReminders env now fetched).interviews24h ↔
      (i.reminder_24h_sent = false ∧ q23p5 ≤ diffHours env now i ∧
        diffHours env now i ≤ q24p5)) ∧
    (i ∈ (classifyReminders env now fetched).interviews3h ↔
      (i.reminder_3h_sent = false ∧ q2p5 ≤ diffHours env now i ∧
        diffHours env now i ≤ q3p5)) := by
  constructor <;>
    simp [classifyReminders, List.mem_filter, hmem, and_assoc]

theorem getLast_concat (l : List Interview) (x : Interview) :
    (l ++ [x]).getLast? = some x := by
  simp [List.getLast?_append]

theorem getLast_map (f : Interview → Interview) (l : List Interview) :
    (l.map f).getLast? = (l.getLast?).map f := by
  induction l with
  | nil => rfl
  | cons a as ih =>
    cases as with
    | nil => rfl
    | cons b bs => simpa using ih

/-- C3: an interview created less than 3 hours before its start is immediately marked with the 24h flag; one created less than 1 hour out also gets the 3h flag; one created between 1 and 3 hours out keeps the 3h flag false. The created row's flags equal exactly the guard conditions. -/
theorem claim_C3 (env : Env) (now : Int) (db : List Interview) (i0 : Interview)
    (h24 : env.markOk i0.id ReminderType.h24 = true)
    (h3 : env.markOk i0.id ReminderType.h3 = true) :
    ∃ r : Interview, (addInterview env now db i0).getLast? = some r ∧
      r.id = i0.id ∧
      r.reminder_24h_sent = decide (diffHours env now i0 < mkRat 3 1) ∧
      r.reminder_3h_sent = decide (diffHours env now i0 < mkRat 1 1) := by
  have hd : diffHours env now
      { i0 with reminder_24h_sent := false, reminder_3h_sent := false } =
      diffHours env now i0 := rfl
  by_cases hc3 : diffHours env now i0 < mkRat 3 1
  · by_cases hc1 : diffHours env now i0 < mkRat 1 1
    · refine ⟨{ i0 with reminder_24h_sent := true, reminder_3h_sent := true }, ?_, rfl, ?_, ?_⟩
      · simp only [addInterview, hd, hc3, hc1, if_true, markReminderSent, h24, h3, ite_true]
        rw [getLast_map, getLast_map, getLast_concat]
        simp [setFlag]
      · exact (decide_eq_true hc3).symm
      · exact (decide_eq_true hc1).symm
    · refine ⟨{ i0 with reminder_24h_sent := true, reminder_3h_sent := false }, ?_, rfl, ?_, ?_⟩
      · simp only [addInterview, hd, hc3, hc1, if_true, if_false, markReminderSent, h24, ite_true,
          ite_false]
        rw [getLast_map, getLast_concat]
        simp [setFlag]
      · exact (decide_eq_true hc3).symm
      · exact (decide_eq_false hc1).symm
  · have hc1 : ¬ diffHours env now i0 < mkRat 1 1 := by
      intro h
      exact hc3 (lt_trans h (by decide))
    refine ⟨{ i0 with reminder_24h_sent := false, reminder_3h_sent := false }, ?_, rfl, ?_, ?_⟩
    · simp only [addInterview, hd, hc3, hc1, if_false, ite_false]
      exact getLast_concat db _
    · exact (decide_eq_false hc3).symm
    · exact (decide_eq_false hc1).symm

/-- C9: with the store configured and a pre-shared key configured, a mismatching supplied key yields the unauthorized response with no store access and no processing, a status distinct from the configuration failure and from a normal cycle report. -/
theorem claim_C9 (cfg : TriggerConfig) (req : TriggerRequest) (env : Env)
    (now : Int) (nowDate : String) (db : List Interview)
    (u k expected : String)
    (hu : cfg.supabaseUrl = some u) (hk : cfg.supabaseKey = some k)
    (hc : cfg.cronApiKey = some expected) (hmiss : req.apiKey ≠ some expected) :
    triggerReminders cfg req env now nowDate db = (TriggerResponse.unauthorized, false) ∧
    TriggerResponse.unauthorized ≠ TriggerResponse.configError ∧
    (∀ n e, TriggerResponse.unauthorized ≠ TriggerResponse.remindersOk n e) := by
  refine ⟨?_, by simp, by simp⟩
  simp [triggerReminders, hu, hk, hc, hmiss]

/-- C10 counterexample: deleting a non-existent interview returns the same success outcome as deleting an existing one, so the delete operation has no distinguishable not-found result. -/
theorem claim_C10_counterexample :
    (deleteInterview [] "Uowner" 5).2 = true ∧
    (deleteInterview
      [{ id := 5, user_id := "Uowner", interviewee_name := "A", interviewer_name := "B",
         interview_date := "2024-01-02", interview_time := "14:30:00", reason := "r",
         reminder_24h_sent := false, reminder_3h_sent := false }] "Uowner" 5).2 = true ∧
    (deleteInterview [] "Uowner" 5).2 =
      (deleteInterview
        [{ id := 5, user_id := "Uowner", interviewee_name := "A", interviewer_name := "B",
           interview_date := "2024-01-02", interview_time := "14:30:00", reason := "r",
           reminder_24h_sent := false, reminder_3h_sent := false }] "Uowner" 5).2 := by
  exact ⟨rfl, rfl, rfl⟩

/-- C10 (amended): update reports success in all cases but its returned row distinguishes not-found (no row) from updated (a row); delete returns an identical bare success result whether or not a matching row existed. -/
theorem claim_C10_amended (db : List Interview) (uid : String) (interviewId : Nat)
    (f : UpdField) (v : String) :
    ((¬ ∃ r ∈ db, r.id = interviewId ∧ r.user_id = uid) →
        (updateInterview db uid interviewId f v).data0 = none ∧
        (updateInterview db uid interviewId f v).success = true) ∧
    ((∃ r ∈ db, r.id = interviewId ∧ r.user_id = uid) →
        ∃ x, (updateInterview db uid interviewId f v).data0 = some x) ∧
    (deleteInterview db uid interviewId).2 = true := by
  have hpres : ∀ r : Interview,
      ((if r.id = interviewId ∧ r.user_id = uid then applyUpdate f v r else r).id = r.id) ∧
      ((if r.id = interviewId ∧ r.user_id = uid then applyUpdate f v r else r).user_id
        = r.user_id) := by
    intro r
    by_cases h : r.id = interviewId ∧ r.user_id = uid
    · cases f <;> simp [applyUpdate, h]
    · simp [h]
  refine ⟨?_, ?_, rfl⟩
  · intro hno
    constructor
    · simp only [updateInterview]
      rw [List.head?_eq_none_iff, List.filter_eq_nil_iff]
      intro a ha
      rcases List.mem_map.mp ha with ⟨r, hr, rfl⟩
      rcases hpres r with ⟨h1, h2⟩
      simp only [decide_eq_true_eq, h1, h2]
      intro hcon
      exact hno ⟨r, hr, hcon⟩
    · rfl
  · intro hyes
    rcases hyes with ⟨r, hr, hcond⟩
    simp only [updateInterview]
    have hmem : (if r.id = interviewId ∧ r.user_id = uid then applyUpdate f v r else r) ∈
        (db.map (fun r =>
          if r.id = interviewId ∧ r.user_id = uid then applyUpdate f v r else r)).filter
          (fun r => decide (r.id = interviewId ∧ r.user_id = uid)) := by
      rw [List.mem_filter]
      constructor
      · exact List.mem_map.mpr ⟨r, hr, rfl⟩
      · rcases hpres r with ⟨h1, h2⟩
        simp only [decide_eq_true_eq, h1, h2]
        exact hcond
    rcases List.head?_eq_head (l := (db.map (fun r =>
      if r.id = interviewId ∧ r.user_id = uid then applyUpdate f v r else r)).filter
      (fun r => decide (r.id = interviewId ∧ r.user_id = uid))) (by
        intro hnil
        rw [hnil] at hmem
        exact List.not_mem_nil _ hmem) with h
    exact ⟨_, h⟩

/-- C7 (amended): a failed flag write leaves the store unchanged and does not abort processing of the remaining interviews of the cycle, but the failure is not recorded in the cycle's aggregate error report - only the forwarded per-recipient errors appear, because the write's result object is ignored. -/
theorem claim_C7_amended (env : Env) (t : ReminderType) (st : CycleState)
    (x : Interview) (rest : List Interview)
    (hsucc : (sendReminderMessage env st.1 x t).1.success = true)
    (hfail : env.markOk x.id t = false) :
    (processInterview env t st x).1 = st.1 ∧
    (processInterview env t st x).2.2.1 =
      st.2.2.1 ++ ((sendReminderMessage env st.1 x t).1.errors).map CycleErr.recip ∧
    (x :: rest).foldl (processInterview env t) st =
      rest.foldl (processInterview env t) (processInterview env t st x) := by
  refine ⟨?_, ?_, rfl⟩
  · unfold processInterview
    simp [hsucc, markReminderSent, hfail]
  · unfold processInterview
    simp [hsucc]

/-- C7 counterexample: a cycle in which the only classified interview's flag write fails reports totalSent 1 and an empty error list, so the write failure is not recorded in the aggregate report, contrary to the claim. -/
theorem claim_C7_counterexample :
    cEnv7.markOk cIv2.id ReminderType.h24 = false ∧
    (processReminders cEnv7 0 "2024-01-01" [cIv2]).report.totalSent = 1 ∧
    (processReminders cEnv7 0 "2024-01-01" [cIv2]).db = [cIv2] ∧
    (processReminders cEnv7 0 "2024-01-01" [cIv2]).report.errors = [] := by
  decide

/-- C8 counterexample: a cycle with two classified interviews resolves the recipient directory twice, refuting exactly-once-per-cycle resolution. -/
theorem claim_C8_counterexample :
    (classifyReminders cEnv4 0 (fetchCandidates "2024-01-01" cDb8)).interviews24h.length = 2 ∧
    ((processReminders cEnv4 0 "2024-01-01" cDb8).events).count Event.resolveRecipients = 2 := by
  decide

/-- Witness for C1 at a concrete interview exactly 24 hours out. -/
theorem claim_C1_witness :
    cIv2 ∈ (classifyReminders cEnv4 0 [cIv2]).interviews24h :=
  ((claim_C1 cEnv4 0 [cIv2] cIv2 (by decide)).1).mpr (by decide)

/-- Witness for C2: with one of three deliveries succeeding, the flag map is applied. -/
theorem claim_C2_witness :
    (processInterview cEnv2 ReminderType.h24 (cDb2, 0, [], []) cIv2).1 =
      cDb2.map (fun r => if r.id = cIv2.id then setFlag ReminderType.h24 r else r) :=
  (claim_C2.1 cEnv2 ReminderType.h24 (cDb2, 0, [], []) cIv2 (by decide)).2 (by decide)

/-- Witness for C3 at an interview created 2 hours before its start. -/
theorem claim_C3_witness :
    ∃ r : Interview, (addInterview cEnv3 0 [] cIv2).getLast? = some r ∧
      r.id = cIv2.id ∧
      r.reminder_24h_sent = decide (diffHours cEnv3 0 cIv2 < mkRat 3 1) ∧
      r.reminder_3h_sent = decide (diffHours cEnv3 0 cIv2 < mkRat 1 1) :=
  claim_C3 cEnv3 0 [] cIv2 (by decide) (by decide)

/-- Witness for C4 on a one-interview store with reliable delivery and writes. -/
theorem claim_C4_witness :
    (processReminders cEnv4 0 "2024-01-01"
      (processReminders cEnv4 0 "2024-01-01" cDb2).db).report.totalSent = 0 :=
  (claim_C4 cEnv4 0 "2024-01-01" cDb2 (by decide) (by decide)).1

/-- Witness for C5: a true 24h flag survives a 3h flag write. -/
theorem claim_C5_witness :
    (((markReminderSent cEnv4 [cIv5] 1 ReminderType.h3).1).get
      ⟨0, by decide⟩).reminder_24h_sent = true := by
  obtain ⟨hk2, h24, h3⟩ := claim_C5.1 cEnv4 [cIv5] 1 ReminderType.h3 0 (by decide)
  exact h24 (by decide)

/-- Witness for C6: a malformed tracked recipient id yields a validation error entry. -/
theorem claim_C6_witness :
    ErrEntry.userInvalid "bad" ∈
      (sendReminderMessage cEnv6 [cIv2] cIv2 ReminderType.h24).1.errors :=
  ((claim_C6 cEnv6 [cIv2] cIv2 ReminderType.h24).1 "bad" (by decide) (by decide)).2

/-- Witness for the amended C7: the failed write leaves the store unchanged. -/
theorem claim_C7_witness :
    (processInterview cEnv7 ReminderType.h24 ([cIv2], 0, [], []) cIv2).1 = [cIv2] :=
  (claim_C7_amended cEnv7 ReminderType.h24 ([cIv2], 0, [], []) cIv2 []
    (by decide) (by decide)).1

/-- Witness for C9 at a concrete configuration and mismatching key. -/
theorem claim_C9_witness :
    triggerReminders ⟨some "url", some "key", some "secret"⟩ ⟨some "wrong", ""⟩
      cEnv4 0 "2024-01-01" cDb2 = (TriggerResponse.unauthorized, false) :=
  (claim_C9 ⟨some "url", some "key", some "secret"⟩ ⟨some "wrong", ""⟩ cEnv4 0 "2024-01-01"
    cDb2 "url" "key" "secret" rfl rfl rfl (by decide)).1

/-- Witness for the amended C10: updating an empty store returns success with no row. -/
theorem claim_C10_witness :
    (updateInterview [] "u" 1 UpdField.reason "x").data0 = none ∧
    (updateInterview [] "u" 1 UpdField.reason "x").success = true :=
  (claim_C10_amended [] "u" 1 UpdField.reason "x").1 (by simp)
end LineBot
